import Mathlib

/-!
Verification of the execution bridge of the tychosdk emulator
(src/src/executor/Executor.ts) together with the signature-domain utility
(src/src/utils/sign.ts).

Modelling conventions:
- JSON scalar values are the inductive JVal; a JSON object as produced by
  JSON.parse or consumed by JSON.stringify is an association list of
  present keys, in insertion order.  A JavaScript property whose value is
  undefined is omitted by JSON.stringify, so an optional property is
  modelled by inserting the key only when the value is present (optField).
- Property access (o.k) is key lookup (jLookup), the JavaScript "in"
  operator is key presence (hKey), and object rest-destructuring that
  drops one key is removeKey.
- Cells are opaque: a Cell carries the base64 string of its serialized
  BOC, and toBoc().toString("base64") is Cell.toBocBase64.  Byte buffers
  are lists of byte values; toString("hex") is bytesToHex.
- The native wasm module is external: create_emulator allocates a fresh
  handle (modelled by a counter in the executor state), destroy_emulator
  and the emulate calls are recorded as NativeEvent values, and the
  response of an emulate or run_get_method call is supplied by an oracle
  function standing for the engine.
- Arbitrary-precision JavaScript bigints are Int; BigInt toString is the
  decimal encoder bigIntToString below.
-/

/-- A JSON scalar value, plus a string-valued map used for the one nested
object of the wire schema (extra_currencies, whose values are all
strings). -/
inductive JVal where
  | null
  | bool (b : Bool)
  | num (n : Int)
  | str (s : String)
  | strMap (m : List (String × String))
  deriving DecidableEq, Repr

/-- Key lookup in a JSON object, mirroring JavaScript property access
(returns none for an absent key, i.e. undefined). -/
def jLookup (k : String) : List (String × JVal) → Option JVal
  | [] => none
  | (k', v) :: rest => if k = k' then some v else jLookup k rest

/-- Key presence, mirroring the JavaScript "in" operator. -/
def hKey (k : String) (o : List (String × JVal)) : Bool :=
  (jLookup k o).isSome

/-- Drop one key from a JSON object, mirroring rest-destructuring
const (dropped, ...rest) = o. -/
def removeKey (k : String) : List (String × JVal) → List (String × JVal)
  | [] => []
  | (k', v) :: rest =>
      if k = k' then removeKey k rest else (k', v) :: removeKey k rest

/-- An optional JSON property: present keys only, since JSON.stringify
omits properties whose value is undefined. -/
def optField (k : String) : Option JVal → List (String × JVal)
  | none => []
  | some v => [(k, v)]

/-- An opaque cell, identified with the base64 encoding of its serialized
BOC. -/
structure Cell where
  bocBase64 : String
  deriving DecidableEq, Repr

/-- Models cell.toBoc().toString("base64"). -/
def Cell.toBocBase64 (c : Cell) : String := c.bocBase64

/-- A byte buffer. -/
abbrev Bytes : Type := List Nat

/-- Lower-case hex digit for a nibble, as Buffer.toString("hex")
produces. -/
def hexChar (d : Nat) : Char :=
  if d < 10 then Char.ofNat (48 + d) else Char.ofNat (87 + d)

/-- Models Buffer.toString("hex"): two lower-case hex digits per byte. -/
def bytesToHex (bs : Bytes) : String :=
  String.mk (List.foldr (fun b acc => hexChar (b / 16) :: hexChar (b % 16) :: acc) [] bs)

/-- Decimal digit character (codepoint 48 + d). -/
def decDigitChar (d : Nat) : Char := Char.ofNat (48 + d)

/-- Decimal string of a natural number, most significant digit first;
models the JavaScript BigInt toString radix-10 output for non-negative
values. -/
def natToDecimal (n : Nat) : String :=
  if n = 0 then "0"
  else String.mk (((Nat.digits 10 n).reverse).map decDigitChar)

/-- Models the JavaScript BigInt toString() encoding used for balances,
gas limits and logical times crossing the wire. -/
def bigIntToString : Int → String
  | Int.ofNat n => natToDecimal n
  | Int.negSucc m => "-" ++ natToDecimal (m + 1)

/-- Value of a decimal ASCII digit character, none for a non-digit. -/
def charDigit (c : Char) : Option Nat :=
  if 48 ≤ c.toNat ∧ c.toNat ≤ 57 then some (c.toNat - 48) else none

/-- Accumulating decimal parse of a most-significant-first digit string. -/
def parseDigitsAux : List Char → Nat → Option Nat
  | [], acc => some acc
  | c :: cs, acc =>
      match charDigit c with
      | some d => parseDigitsAux cs (acc * 10 + d)
      | none => none

/-- Modelled from the spec: the decoding direction of the numeric codec
(the native engine re-parses the decimal strings as arbitrary-precision
integers; that code is not part of this repository).  Parses an optional
minus sign followed by decimal digits. -/
def parseDecimal (s : String) : Option Int :=
  match s.data with
  | [] => none
  | c :: cs =>
      if c = '-' then
        match cs with
        | [] => none
        | _ :: _ => (parseDigitsAux cs 0).map (fun n => -(n : Int))
      else (parseDigitsAux (c :: cs) 0).map (fun n => (n : Int))

/-- The symbolic verbosity levels of the executor interface. -/
inductive Verbosity where
  | short
  | full
  | full_location
  | full_location_gas
  | full_location_stack
  | full_location_stack_verbose
  deriving DecidableEq, Repr

/-- The verbosityToNum record of Executor.ts. -/
def verbosityToNum : Verbosity → Nat
  | .short => 0
  | .full => 1
  | .full_location => 2
  | .full_location_gas => 3
  | .full_location_stack => 4
  | .full_location_stack_verbose => 5

/-- TychoExecutorParams: engine-tunable behavioral flags.  Each field is
optional at the JavaScript level (undefined when not set), hence Option
Bool. -/
structure TychoExecutorParams where
  disableDeleteFrozenAccounts : Option Bool := none
  chargeActionFeesOnFail : Option Bool := none
  fullBodyInBounced : Option Bool := none
  deriving DecidableEq, Repr

/-- ExecutorGetMethodArgs.  The stack is already the base64 BOC of the
serialized tuple (serializeTuple followed by toBoc is opaque here);
debugEnabled is kept as it is at runtime, where an undefined value is
dropped by JSON.stringify. -/
structure GetMethodArgs where
  code : Cell
  data : Cell
  verbosity : Verbosity
  libs : Option Cell
  address : String
  unixTime : Int
  balance : Int
  randomSeed : Bytes
  gasLimit : Int
  methodId : Int
  debugEnabled : Option Bool
  stackBoc : String
  config : String
  extraCurrency : Option (List (String × Int))
  deriving DecidableEq, Repr

/-- The common fields of ExecutorRunTransactionArgs and
ExecutorRunTickTockArgs. -/
structure RunCommonArgs where
  config : String
  libs : Option Cell
  verbosity : Verbosity
  shardAccount : String
  now : Int
  lt : Int
  randomSeed : Option Bytes
  ignoreChksig : Bool
  debugEnabled : Bool
  deriving DecidableEq, Repr

/-- ExecutorRunTransactionArgs. -/
structure RunTransactionArgs extends RunCommonArgs where
  message : Cell
  deriving DecidableEq, Repr

/-- Tick or tock discriminant of a tick-tock transaction. -/
inductive TickTock where
  | tick
  | tock
  deriving DecidableEq, Repr

/-- ExecutorRunTickTockArgs. -/
structure RunTickTockArgs extends RunCommonArgs where
  which : TickTock
  deriving DecidableEq, Repr

/-- The RunGetMethodParams JSON object built by runGetMethod, in literal
insertion order, with undefined-valued properties omitted and
extra_currencies appended afterwards when present. -/
def runGetMethodParams (args : GetMethodArgs) : List (String × JVal) :=
  [("code", JVal.str args.code.toBocBase64),
   ("data", JVal.str args.data.toBocBase64),
   ("verbosity", JVal.num (verbosityToNum args.verbosity))]
  ++ optField "libs" (args.libs.map (fun l => JVal.str l.toBocBase64))
  ++ [("address", JVal.str args.address),
      ("unixtime", JVal.num args.unixTime),
      ("balance", JVal.str (bigIntToString args.balance)),
      ("rand_seed", JVal.str (bytesToHex args.randomSeed)),
      ("gas_limit", JVal.str (bigIntToString args.gasLimit)),
      ("method_id", JVal.num args.methodId)]
  ++ optField "debug_enabled" (args.debugEnabled.map JVal.bool)
  ++ optField "extra_currencies"
      (args.extraCurrency.map (fun ec =>
        JVal.strMap (ec.map (fun kv => (kv.1, bigIntToString kv.2)))))

/-- runCommonArgsToInternalParams of Executor.ts: the EmulatorParams JSON
object shared by runTransaction and runTickTock, with optional properties
(rand_seed via optional chaining, and the three executor flags) omitted
when the value is undefined. -/
def runCommonArgsToInternalParams (args : RunCommonArgs)
    (ep : TychoExecutorParams) : List (String × JVal) :=
  [("unixtime", JVal.num args.now),
   ("lt", JVal.str (bigIntToString args.lt))]
  ++ optField "rand_seed" (args.randomSeed.map (fun b => JVal.str (bytesToHex b)))
  ++ [("ignore_chksig", JVal.bool args.ignoreChksig),
      ("debug_enabled", JVal.bool args.debugEnabled)]
  ++ optField "disable_delete_frozen_accounts"
      (ep.disableDeleteFrozenAccounts.map JVal.bool)
  ++ optField "charge_action_fees_on_fail"
      (ep.chargeActionFeesOnFail.map JVal.bool)
  ++ optField "full_body_in_bounced"
      (ep.fullBodyInBounced.map JVal.bool)

/-- The parsed engine response: OkResponse carries the output object and
the log string, ErrResponse carries the message. -/
inductive EngineResponse where
  | ok (output : List (String × JVal)) (logs : String)
  | err (message : String)
  deriving DecidableEq, Repr

/-- JavaScript truthiness of a possibly-absent JSON value, as used by the
conditional on output.success. -/
def truthy : Option JVal → Bool
  | none => false
  | some JVal.null => false
  | some (JVal.bool b) => b
  | some (JVal.num n) => n != 0
  | some (JVal.str s) => s != ""
  | some (JVal.strMap _) => true

/-- The normalized transaction result: either the success shape with the
four copied fields, or the failure shape whose vmResults component is
present exactly when it was built (each copied field is an Option because
property access on an absent key yields undefined). -/
inductive TxResult where
  | success (transaction shardAccount vmLog actions : Option JVal)
  | failure (error : Option JVal)
      (vmResults : Option (Option JVal × Option JVal))
  deriving DecidableEq, Repr

/-- ExecutorEmulationResult as returned by runCommon: the normalized
result, the primary log channel, and the split-off debug log channel. -/
structure ExecutorEmulationResult where
  result : TxResult
  logs : String
  debugLogs : Option JVal
  deriving DecidableEq, Repr

/-- runCommon of Executor.ts after the JSON.parse: throws on an
ErrResponse, otherwise splits debug_log off the output object and
normalizes the remainder, branching on the truthiness of output.success
and, in the failure branch, on presence of the vm_log key. -/
def runCommon : EngineResponse → Except String ExecutorEmulationResult
  | .err m => .error ("Unknown emulation error: " ++ m)
  | .ok rawOutput logs =>
      let debugLog := jLookup "debug_log" rawOutput
      let output := removeKey "debug_log" rawOutput
      let result :=
        if truthy (jLookup "success" output) then
          TxResult.success (jLookup "transaction" output)
            (jLookup "shard_account" output)
            (jLookup "vm_log" output)
            (jLookup "actions" output)
        else
          TxResult.failure (jLookup "error" output)
            (if hKey "vm_log" output then
               some (jLookup "vm_log" output, jLookup "vm_exit_code" output)
             else none)
      .ok ⟨result, logs, debugLog⟩

/-- ExecutorGetMethodResult: the success payload with debug_log split
out, the primary log channel, and the debug log channel. -/
structure ExecutorGetMethodResult where
  output : List (String × JVal)
  logs : String
  debugLogs : Option JVal
  deriving DecidableEq, Repr

/-- The run_get_method native call as seen by the engine: the encoded
params JSON, the base64 stack BOC and the config string. -/
structure GetMethodCall where
  paramsJson : List (String × JVal)
  stackBoc : String
  config : String
  deriving DecidableEq, Repr

/-- runGetMethod of Executor.ts: encode the params, invoke the engine
(the oracle stands for module.run_get_method plus JSON.parse), then
either split debug_log out of the success output or throw with the
engine message. -/
def runGetMethod (args : GetMethodArgs)
    (oracle : GetMethodCall → EngineResponse) :
    Except String ExecutorGetMethodResult :=
  match oracle ⟨runGetMethodParams args, args.stackBoc, args.config⟩ with
  | .ok output logs =>
      .ok ⟨removeKey "debug_log" output, logs, jLookup "debug_log" output⟩
  | .err m => .error ("Unknown emulation error: " ++ m)

/-- The cached emulator slot of a TychoExecutor instance. -/
structure EmulatorCache where
  ptr : Nat
  config : String
  verbosity : Nat
  deriving DecidableEq, Repr

/-- The cross-call state of a TychoExecutor instance: the optional cached
emulator, plus a counter standing for the native allocator of fresh
handles. -/
structure ExecState where
  emulator : Option EmulatorCache
  nextPtr : Nat
  deriving DecidableEq, Repr

/-- The state of a freshly created TychoExecutor: no emulator cached. -/
def initialExecState : ExecState := ⟨none, 0⟩

/-- The emulate_with_emulator native call as seen by the engine. -/
structure EmulateCall where
  ptr : Nat
  libs : Option String
  shardAccount : String
  message : Option String
  params : List (String × JVal)
  deriving DecidableEq, Repr

/-- One call into the native module, recorded for the lifecycle
invariants. -/
inductive NativeEvent where
  | create (config : String) (verbosity : Nat) (ptr : Nat)
  | destroy (ptr : Nat)
  | emulate (call : EmulateCall)
  deriving DecidableEq, Repr

/-- createEmulator of Executor.ts: destroy the previous handle when one
is cached, then create a fresh handle for the new key and cache it. -/
def createEmulator (config : String) (verbosity : Nat) (s : ExecState) :
    ExecState × List NativeEvent :=
  let destroyEvs :=
    match s.emulator with
    | some e => [NativeEvent.destroy e.ptr]
    | none => []
  (⟨some ⟨s.nextPtr, config, verbosity⟩, s.nextPtr + 1⟩,
   destroyEvs ++ [NativeEvent.create config verbosity s.nextPtr])

/-- getEmulatorPointer of Executor.ts: recreate the emulator when none is
cached or the cached key differs, then return the cached pointer (the
final non-null assertion is modelled by a junk value 0 on the impossible
branch). -/
def getEmulatorPointer (config : String) (verbosity : Nat) (s : ExecState) :
    Nat × ExecState × List NativeEvent :=
  let needNew :=
    match s.emulator with
    | none => true
    | some e => decide (verbosity ≠ e.verbosity ∨ config ≠ e.config)
  if needNew then
    let (s', evs) := createEmulator config verbosity s
    (match s'.emulator with | some e => e.ptr | none => 0, s', evs)
  else
    (match s.emulator with | some e => e.ptr | none => 0, s, [])

/-- runTransaction of Executor.ts: translate the common args, ensure the
handle for (config, verbosity), call emulate_with_emulator with the
serialized message, and normalize the response via runCommon. -/
def runTransaction (args : RunTransactionArgs)
    (oracle : EmulateCall → EngineResponse) (ep : TychoExecutorParams)
    (s : ExecState) :
    Except String ExecutorEmulationResult × ExecState × List NativeEvent :=
  let params := runCommonArgsToInternalParams args.toRunCommonArgs ep
  let (ptr, s', evs) :=
    getEmulatorPointer args.config (verbosityToNum args.verbosity) s
  let call : EmulateCall :=
    ⟨ptr, args.libs.map Cell.toBocBase64, args.shardAccount,
     some args.message.toBocBase64, params⟩
  (runCommon (oracle call), s', evs ++ [NativeEvent.emulate call])

/-- runTickTock of Executor.ts: the common params extended (object
spread; the common object never carries the two keys) with is_tick_tock
set to true and is_tock set to whether the which argument is tock, and a
null message passed to emulate_with_emulator. -/
def runTickTock (args : RunTickTockArgs)
    (oracle : EmulateCall → EngineResponse) (ep : TychoExecutorParams)
    (s : ExecState) :
    Except String ExecutorEmulationResult × ExecState × List NativeEvent :=
  let params := runCommonArgsToInternalParams args.toRunCommonArgs ep
    ++ [("is_tick_tock", JVal.bool true),
        ("is_tock", JVal.bool (args.which = TickTock.tock))]
  let (ptr, s', evs) :=
    getEmulatorPointer args.config (verbosityToNum args.verbosity) s
  let call : EmulateCall :=
    ⟨ptr, args.libs.map Cell.toBocBase64, args.shardAccount, none, params⟩
  (runCommon (oracle call), s', evs ++ [NativeEvent.emulate call])

/-- One façade call against the handle cache: either a runTransaction or
a runTickTock call. -/
inductive CallArgs where
  | tx (a : RunTransactionArgs)
  | tick (a : RunTickTockArgs)
  deriving DecidableEq, Repr

/-- The config string of a façade call. -/
def CallArgs.config : CallArgs → String
  | .tx a => a.config
  | .tick a => a.config

/-- The symbolic verbosity of a façade call. -/
def CallArgs.verbosity : CallArgs → Verbosity
  | .tx a => a.verbosity
  | .tick a => a.verbosity

/-- Dispatch one façade call. -/
def runCall (oracle : EmulateCall → EngineResponse)
    (ep : TychoExecutorParams) (c : CallArgs) (s : ExecState) :
    Except String ExecutorEmulationResult × ExecState × List NativeEvent :=
  match c with
  | .tx a => runTransaction a oracle ep s
  | .tick a => runTickTock a oracle ep s

/-- Run a sequence of façade calls against one executor instance,
collecting the native-call trace. -/
def runCalls (oracle : EmulateCall → EngineResponse)
    (ep : TychoExecutorParams) : List CallArgs → ExecState →
    ExecState × List NativeEvent
  | [], s => (s, [])
  | c :: cs, s =>
      let r := runCall oracle ep c s
      let rest := runCalls oracle ep cs r.2.1
      (rest.1, r.2.2 ++ rest.2)

/-- Number of create_emulator invocations in a trace. -/
def countCreate (evs : List NativeEvent) : Nat :=
  evs.countP (fun e => match e with | .create .. => true | _ => false)

/-- Number of destroy_emulator invocations in a trace. -/
def countDestroy (evs : List NativeEvent) : Nat :=
  evs.countP (fun e => match e with | .destroy _ => true | _ => false)

/-- Every emulate event of the trace uses the given handle. -/
def emulatesOnlyWith (p : Nat) (evs : List NativeEvent) : Bool :=
  evs.all (fun e => match e with | .emulate c => c.ptr == p | _ => true)

/-- TL tag of the l2 signature domain (sign.ts). -/
def TL_ID_SIGNATURE_DOMAIN_L2 : Int := 0x71b34ee1

/-- TL tag of the empty signature domain (sign.ts). -/
def TL_ID_SIGNATURE_DOMAIN_EMPTY : Int := 0xe1d571b

/-- Buffer.writeInt32LE: the four little-endian bytes of the value taken
modulo 2 to the 32. -/
def writeInt32LE (v : Int) : Bytes :=
  let n := (v % (2 ^ 32 : Int)).toNat
  [n % 256, n / 256 % 256, n / 65536 % 256, n / 16777216 % 256]

/-- The 4-byte TL encoding of the empty signature domain. -/
def tlSignatureDomainEmpty : Bytes := writeInt32LE TL_ID_SIGNATURE_DOMAIN_EMPTY

/-- SIGNATURE_DOMAIN_EMPTY_HASH of sign.ts, parametrized by the sha256
function of the external crypto library. -/
def SIGNATURE_DOMAIN_EMPTY_HASH (sha256 : Bytes → Bytes) : Bytes :=
  sha256 tlSignatureDomainEmpty

/-- The 8-byte TL encoding of the l2 signature domain: the l2 tag
followed by the global id, both as little-endian 32-bit writes. -/
def tlSignatureDomainL2 (globalId : Int) : Bytes :=
  writeInt32LE TL_ID_SIGNATURE_DOMAIN_L2 ++ writeInt32LE globalId

/-- The SignatureDomain union of sign.ts. -/
inductive SignatureDomain where
  | empty
  | l2 (globalId : Int)
  deriving DecidableEq, Repr

/-- The argument of signatureDomainPrefix: a domain tag or an explicit
hash buffer (the Buffer.isBuffer branch). -/
inductive SignatureDomainInput where
  | dom (d : SignatureDomain)
  | buf (b : Bytes)
  deriving DecidableEq, Repr

/-- signatureDomainPrefix of sign.ts: an explicit buffer must be 32 bytes
and collapses to no prefix when it equals the empty-domain hash; the
empty tag gives no prefix; the l2 tag gives the sha256 of its 8-byte TL
encoding.  Buffer.compare returning 0 is content equality. -/
def signatureDomainPrefix (sha256 : Bytes → Bytes) :
    SignatureDomainInput → Except String (Option Bytes)
  | .buf b =>
      if b.length ≠ 32 then .error "invalid signature domain hash"
      else if b = SIGNATURE_DOMAIN_EMPTY_HASH sha256 then .ok none
      else .ok (some b)
  | .dom .empty => .ok none
  | .dom (.l2 gid) => .ok (some (sha256 (tlSignatureDomainL2 gid)))

/-- The emulate call built by a façade call once the handle is known:
runTransaction passes the serialized message, runTickTock passes a null
message and appends the tick-tock discriminant keys to the params. -/
def emulateCallOf (c : CallArgs) (ptr : Nat) (ep : TychoExecutorParams) :
    EmulateCall :=
  match c with
  | .tx a =>
      ⟨ptr, a.libs.map Cell.toBocBase64, a.shardAccount,
       some a.message.toBocBase64,
       runCommonArgsToInternalParams a.toRunCommonArgs ep⟩
  | .tick a =>
      ⟨ptr, a.libs.map Cell.toBocBase64, a.shardAccount, none,
       runCommonArgsToInternalParams a.toRunCommonArgs ep
         ++ [("is_tick_tock", JVal.bool true),
             ("is_tock", JVal.bool (a.which = TickTock.tock))]⟩

/-- Looking up a key other than the removed one is unchanged. -/
theorem jLookup_removeKey_ne {k rk : String} (h : k ≠ rk)
    (o : List (String × JVal)) :
    jLookup k (removeKey rk o) = jLookup k o := by
  induction o with
  | nil => rfl
  | cons kv rest ih =>
      obtain ⟨k1, v1⟩ := kv
      simp only [removeKey]
      split_ifs with h1
      · rw [ih]
        subst h1
        simp [jLookup, h]
      · simp only [jLookup]
        split_ifs with h2
        · rfl
        · exact ih

/-- The removed key is no longer found. -/
theorem jLookup_removeKey_self (k : String) (o : List (String × JVal)) :
    jLookup k (removeKey k o) = none := by
  induction o with
  | nil => rfl
  | cons kv rest ih =>
      obtain ⟨k1, v1⟩ := kv
      simp only [removeKey]
      split_ifs with h1
      · exact ih
      · simp only [jLookup]
        rw [if_neg h1, ih]

/-- Lookup distributes over append, first list first. -/
theorem jLookup_append (k : String) (a b : List (String × JVal)) :
    jLookup k (a ++ b) =
      match jLookup k a with
      | some v => some v
      | none => jLookup k b := by
  induction a with
  | nil => rfl
  | cons kv rest ih =>
      obtain ⟨k1, v1⟩ := kv
      simp only [List.cons_append, jLookup]
      split_ifs with h1
      · rfl
      · exact ih

/-- Key presence distributes over append. -/
theorem hKey_append (k : String) (a b : List (String × JVal)) :
    hKey k (a ++ b) = (hKey k a || hKey k b) := by
  unfold hKey
  rw [jLookup_append]
  cases jLookup k a <;> simp

/-- An optional property under a different key does not affect lookup. -/
theorem jLookup_optField_ne {k k' : String} (h : k ≠ k') (v : Option JVal)
    (rest : List (String × JVal)) :
    jLookup k (optField k' v ++ rest) = jLookup k rest := by
  cases v <;> simp [optField, jLookup, h]

/-- An optional property under a different key is never present. -/
theorem hKey_optField_ne {k k' : String} (h : k ≠ k') (v : Option JVal) :
    hKey k (optField k' v) = false := by
  cases v <;> simp [optField, hKey, jLookup, h]

/-- Cache hit: same config and verbosity, no native calls, cached pointer
returned, state unchanged. -/
theorem getEmulatorPointer_hit {p v : Nat} {c : String} {s : ExecState}
    (h : s.emulator = some ⟨p, c, v⟩) :
    getEmulatorPointer c v s = (p, s, []) := by
  simp [getEmulatorPointer, h]

/-- First use: nothing cached, a single create call, fresh handle cached
under the requested key. -/
theorem getEmulatorPointer_none {v : Nat} {c : String} {s : ExecState}
    (h : s.emulator = none) :
    getEmulatorPointer c v s =
      (s.nextPtr, ⟨some ⟨s.nextPtr, c, v⟩, s.nextPtr + 1⟩,
       [NativeEvent.create c v s.nextPtr]) := by
  simp [getEmulatorPointer, createEmulator, h]

/-- Key mismatch: the prior handle is destroyed, then a fresh handle is
created and cached under the requested key. -/
theorem getEmulatorPointer_mismatch {p v0 v : Nat} {c0 c : String}
    {s : ExecState} (h : s.emulator = some ⟨p, c0, v0⟩)
    (hne : v ≠ v0 ∨ c ≠ c0) :
    getEmulatorPointer c v s =
      (s.nextPtr, ⟨some ⟨s.nextPtr, c, v⟩, s.nextPtr + 1⟩,
       [NativeEvent.destroy p, NativeEvent.create c v s.nextPtr]) := by
  have hd : decide (v ≠ v0 ∨ c ≠ c0) = true := decide_eq_true hne
  simp [getEmulatorPointer, createEmulator, h, hd]

/-- After getEmulatorPointer the cached key always equals the requested
key, and the returned pointer is the cached one. -/
theorem getEmulatorPointer_cachesKey (c : String) (v : Nat) (s : ExecState) :
    (getEmulatorPointer c v s).2.1.emulator =
      some ⟨(getEmulatorPointer c v s).1, c, v⟩ := by
  rcases he : s.emulator with _ | ⟨p, c0, v0⟩
  · rw [getEmulatorPointer_none he]
  · by_cases h1 : v = v0
    · by_cases h2 : c = c0
      · subst h1
        subst h2
        rw [getEmulatorPointer_hit he]
        simpa using he
      · rw [getEmulatorPointer_mismatch he (Or.inr h2)]
    · rw [getEmulatorPointer_mismatch he (Or.inl h1)]

/-- The handle inside the emulate call of a façade call. -/
theorem emulateCallOf_ptr (c : CallArgs) (ptr : Nat)
    (ep : TychoExecutorParams) : (emulateCallOf c ptr ep).ptr = ptr := by
  cases c <;> rfl

/-- A façade call whose key matches the cache leaves the state unchanged
and performs only the emulate call on the cached handle. -/
theorem runCall_cached (oracle : EmulateCall → EngineResponse)
    (ep : TychoExecutorParams) {p : Nat} {s : ExecState} {c : CallArgs}
    (h : s.emulator = some ⟨p, c.config, verbosityToNum c.verbosity⟩) :
    runCall oracle ep c s =
      (runCommon (oracle (emulateCallOf c p ep)), s,
       [NativeEvent.emulate (emulateCallOf c p ep)]) := by
  cases c with
  | tx a =>
      simp only [CallArgs.config, CallArgs.verbosity] at h
      simp [runCall, runTransaction, getEmulatorPointer_hit h, emulateCallOf]
  | tick a =>
      simp only [CallArgs.config, CallArgs.verbosity] at h
      simp [runCall, runTickTock, getEmulatorPointer_hit h, emulateCallOf]

/-- A façade call against an empty cache creates one handle and then
emulates with it. -/
theorem runCall_none (oracle : EmulateCall → EngineResponse)
    (ep : TychoExecutorParams) {s : ExecState} (c : CallArgs)
    (h : s.emulator = none) :
    runCall oracle ep c s =
      (runCommon (oracle (emulateCallOf c s.nextPtr ep)),
       ⟨some ⟨s.nextPtr, c.config, verbosityToNum c.verbosity⟩, s.nextPtr + 1⟩,
       [NativeEvent.create c.config (verbosityToNum c.verbosity) s.nextPtr,
        NativeEvent.emulate (emulateCallOf c s.nextPtr ep)]) := by
  cases c with
  | tx a =>
      simp [runCall, runTransaction, CallArgs.config, CallArgs.verbosity,
        getEmulatorPointer_none h, emulateCallOf]
  | tick a =>
      simp [runCall, runTickTock, CallArgs.config, CallArgs.verbosity,
        getEmulatorPointer_none h, emulateCallOf]

/-- A façade call whose key differs from the cached one destroys the old
handle, creates a fresh one, and emulates with the fresh handle. -/
theorem runCall_mismatch {oracle : EmulateCall → EngineResponse}
    {ep : TychoExecutorParams} {p v0 : Nat} {c0 : String} {s : ExecState}
    {c : CallArgs} (h : s.emulator = some ⟨p, c0, v0⟩)
    (hne : verbosityToNum c.verbosity ≠ v0 ∨ c.config ≠ c0) :
    runCall oracle ep c s =
      (runCommon (oracle (emulateCallOf c s.nextPtr ep)),
       ⟨some ⟨s.nextPtr, c.config, verbosityToNum c.verbosity⟩, s.nextPtr + 1⟩,
       [NativeEvent.destroy p,
        NativeEvent.create c.config (verbosityToNum c.verbosity) s.nextPtr,
        NativeEvent.emulate (emulateCallOf c s.nextPtr ep)]) := by
  cases c with
  | tx a =>
      simp only [CallArgs.config, CallArgs.verbosity] at hne
      simp [runCall, runTransaction, CallArgs.config, CallArgs.verbosity,
        getEmulatorPointer_mismatch h hne, emulateCallOf]
  | tick a =>
      simp only [CallArgs.config, CallArgs.verbosity] at hne
      simp [runCall, runTickTock, CallArgs.config, CallArgs.verbosity,
        getEmulatorPointer_mismatch h hne, emulateCallOf]

/-- A sequence of façade calls whose keys all match the cached key leaves
the state untouched and performs no create or destroy call; every native
call is an emulate on the cached handle. -/
theorem runCalls_cached (oracle : EmulateCall → EngineResponse)
    (ep : TychoExecutorParams) {p : Nat} {cfg : String} {vb : Verbosity}
    (cs : List CallArgs) (s : ExecState)
    (hs : s.emulator = some ⟨p, cfg, verbosityToNum vb⟩)
    (hk : ∀ c ∈ cs, c.config = cfg ∧ c.verbosity = vb) :
    (runCalls oracle ep cs s).1 = s ∧
    countCreate (runCalls oracle ep cs s).2 = 0 ∧
    countDestroy (runCalls oracle ep cs s).2 = 0 ∧
    emulatesOnlyWith p (runCalls oracle ep cs s).2 = true := by
  induction cs with
  | nil => simp [runCalls, countCreate, countDestroy, emulatesOnlyWith]
  | cons c cs ih =>
      have hc := hk c (List.mem_cons_self c cs)
      have h1 : s.emulator = some ⟨p, c.config, verbosityToNum c.verbosity⟩ := by
        rw [hc.1, hc.2]
        exact hs
      have hstep := runCall_cached oracle ep h1
      have ihh := ih (fun c' hc' => hk c' (List.mem_cons_of_mem _ hc'))
      simp only [runCalls, hstep]
      refine ⟨ihh.1, ?_, ?_, ?_⟩
      · simp [countCreate, List.countP_append]
        simpa [countCreate] using ihh.2.1
      · simp [countDestroy, List.countP_append]
        simpa [countDestroy] using ihh.2.2.1
      · simp [emulatesOnlyWith, List.all_append, emulateCallOf_ptr]
        simpa [emulatesOnlyWith] using ihh.2.2.2

/-- The normalized result of a façade call when the engine reports
ok false is the thrown emulation error, whatever the cache did. -/
theorem runCall_errOracle (X : String) (ep : TychoExecutorParams)
    (c : CallArgs) (s : ExecState) :
    (runCall (fun _ => EngineResponse.err X) ep c s).1 =
      Except.error ("Unknown emulation error: " ++ X) := by
  cases c with
  | tx a =>
      simp only [runCall, runTransaction]
      rcases hg : getEmulatorPointer a.config (verbosityToNum a.verbosity) s
        with ⟨ptr, s', evs⟩
      simp [runCommon]
  | tick a =>
      simp only [runCall, runTickTock]
      rcases hg : getEmulatorPointer a.config (verbosityToNum a.verbosity) s
        with ⟨ptr, s', evs⟩
      simp [runCommon]

/-- After any façade call the cache holds the key the call requested,
with the pointer getEmulatorPointer computed. -/
theorem runCall_cachesKey (oracle : EmulateCall → EngineResponse)
    (ep : TychoExecutorParams) (c : CallArgs) (s : ExecState) :
    (runCall oracle ep c s).2.1.emulator =
      some ⟨(getEmulatorPointer c.config (verbosityToNum c.verbosity) s).1,
            c.config, verbosityToNum c.verbosity⟩ := by
  cases c with
  | tx a =>
      simp only [runCall, runTransaction, CallArgs.config, CallArgs.verbosity]
      have hp := getEmulatorPointer_cachesKey a.config
        (verbosityToNum a.verbosity) s
      rcases hg : getEmulatorPointer a.config (verbosityToNum a.verbosity) s
        with ⟨ptr, s', evs⟩
      rw [hg] at hp
      simpa using hp
  | tick a =>
      simp only [runCall, runTickTock, CallArgs.config, CallArgs.verbosity]
      have hp := getEmulatorPointer_cachesKey a.config
        (verbosityToNum a.verbosity) s
      rcases hg : getEmulatorPointer a.config (verbosityToNum a.verbosity) s
        with ⟨ptr, s', evs⟩
      rw [hg] at hp
      simpa using hp

/-- C1: for every nonempty sequence of runTransaction and runTickTock
calls against one fresh TychoExecutor instance, all sharing one
(config, verbosity) pair, create_emulator is invoked exactly once (by
the first call), destroy_emulator is never invoked, the cache still
holds the handle created by the first call, and every native emulate
call uses that same cached handle. -/
theorem claim_C1_handle_reuse (oracle : EmulateCall → EngineResponse)
    (ep : TychoExecutorParams) (cfg : String) (vb : Verbosity)
    (cs : List CallArgs) (hne : cs ≠ [])
    (hk : ∀ c ∈ cs, c.config = cfg ∧ c.verbosity = vb) :
    countCreate (runCalls oracle ep cs initialExecState).2 = 1 ∧
    countDestroy (runCalls oracle ep cs initialExecState).2 = 0 ∧
    (runCalls oracle ep cs initialExecState).1.emulator =
      some ⟨0, cfg, verbosityToNum vb⟩ ∧
    emulatesOnlyWith 0 (runCalls oracle ep cs initialExecState).2 = true := by
  cases cs with
  | nil => exact absurd rfl hne
  | cons c cs =>
      have hc := hk c (List.mem_cons_self c cs)
      have hstep := runCall_none oracle ep c
        (show initialExecState.emulator = none from rfl)
      rw [hc.1, hc.2] at hstep
      simp only [initialExecState] at hstep
      have hrest := runCalls_cached oracle ep cs
        (⟨some ⟨0, cfg, verbosityToNum vb⟩, 0 + 1⟩ : ExecState) rfl
        (fun c' hc' => hk c' (List.mem_cons_of_mem _ hc'))
      obtain ⟨h1, h2, h3, h4⟩ := hrest
      simp only [runCalls, initialExecState, hstep]
      refine ⟨?_, ?_, ?_, ?_⟩
      · simp only [countCreate, List.countP_append] at h2 ⊢
        rw [h2]
        rfl
      · simp only [countDestroy, List.countP_append] at h3 ⊢
        rw [h3]
        rfl
      · rw [h1]
      · simp only [emulatesOnlyWith, List.all_append] at h4 ⊢
        simp [h4, emulateCallOf_ptr]

/-- C2: a façade call whose (config, verbosity) differs from the cached
key performs exactly one destroy of the prior handle, then exactly one
create with the new key, and only then the emulate call; the emulate
call uses the freshly cached handle, whose key equals the requested
one. -/
theorem claim_C2_handle_replacement (oracle : EmulateCall → EngineResponse)
    (ep : TychoExecutorParams) (c : CallArgs) (s : ExecState)
    (p v0 : Nat) (c0 : String)
    (hcache : s.emulator = some ⟨p, c0, v0⟩)
    (hdiff : verbosityToNum c.verbosity ≠ v0 ∨ c.config ≠ c0) :
    (runCall oracle ep c s).2.2 =
      [NativeEvent.destroy p,
       NativeEvent.create c.config (verbosityToNum c.verbosity) s.nextPtr,
       NativeEvent.emulate (emulateCallOf c s.nextPtr ep)] ∧
    (runCall oracle ep c s).2.1.emulator =
      some ⟨s.nextPtr, c.config, verbosityToNum c.verbosity⟩ ∧
    (emulateCallOf c s.nextPtr ep).ptr = s.nextPtr := by
  rw [runCall_mismatch hcache hdiff]
  exact ⟨rfl, rfl, emulateCallOf_ptr c s.nextPtr ep⟩

/-- C10: when a runTransaction or runTickTock call fails because the
engine answered ok false, the call indeed returns the emulation error,
yet the cache still holds the handle obtained for that call's key, so a
following call with the same key performs no create and no destroy and
leaves the state unchanged. -/
theorem claim_C10_error_keeps_cache (oracle2 : EmulateCall → EngineResponse)
    (ep : TychoExecutorParams) (X : String) (c1 c2 : CallArgs)
    (s0 : ExecState) (hcfg : c2.config = c1.config)
    (hvb : c2.verbosity = c1.verbosity) :
    (runCall (fun _ => EngineResponse.err X) ep c1 s0).1 =
      Except.error ("Unknown emulation error: " ++ X) ∧
    (runCall (fun _ => EngineResponse.err X) ep c1 s0).2.1.emulator =
      some ⟨(getEmulatorPointer c1.config (verbosityToNum c1.verbosity) s0).1,
            c1.config, verbosityToNum c1.verbosity⟩ ∧
    (runCall oracle2 ep c2
        ((runCall (fun _ => EngineResponse.err X) ep c1 s0).2.1)).2.1 =
      (runCall (fun _ => EngineResponse.err X) ep c1 s0).2.1 ∧
    countCreate (runCall oracle2 ep c2
        ((runCall (fun _ => EngineResponse.err X) ep c1 s0).2.1)).2.2 = 0 ∧
    countDestroy (runCall oracle2 ep c2
        ((runCall (fun _ => EngineResponse.err X) ep c1 s0).2.1)).2.2 = 0 := by
  have hkey : ((runCall (fun _ => EngineResponse.err X) ep c1 s0).2.1).emulator
      = some ⟨(getEmulatorPointer c1.config (verbosityToNum c1.verbosity) s0).1,
              c2.config, verbosityToNum c2.verbosity⟩ := by
    rw [hcfg, hvb]
    exact runCall_cachesKey _ ep c1 s0
  have hstep2 := runCall_cached oracle2 ep hkey
  refine ⟨runCall_errOracle X ep c1 s0, runCall_cachesKey _ ep c1 s0, ?_, ?_, ?_⟩
  · rw [hstep2]
  · rw [hstep2]
    simp [countCreate]
  · rw [hstep2]
    simp [countDestroy]

/-- C4: a native response with ok false and message X makes each of
runGetMethod, runTransaction and runTickTock fail with an error whose
message contains X, and no partial result is returned (the outcome is an
error, not an ok value). -/
theorem claim_C4_protocol_failure (X : String) (gargs : GetMethodArgs)
    (targs : RunTransactionArgs) (kargs : RunTickTockArgs)
    (ep : TychoExecutorParams) (s1 s2 : ExecState) :
    runGetMethod gargs (fun _ => EngineResponse.err X) =
      Except.error ("Unknown emulation error: " ++ X) ∧
    (runTransaction targs (fun _ => EngineResponse.err X) ep s1).1 =
      Except.error ("Unknown emulation error: " ++ X) ∧
    (runTickTock kargs (fun _ => EngineResponse.err X) ep s2).1 =
      Except.error ("Unknown emulation error: " ++ X) ∧
    ∃ pre post, "Unknown emulation error: " ++ X = pre ++ X ++ post := by
  refine ⟨rfl, ?_, ?_, "Unknown emulation error: ", "", by simp⟩
  · exact runCall_errOracle X ep (CallArgs.tx targs) s1
  · exact runCall_errOracle X ep (CallArgs.tick kargs) s2

/-- C7: on an ok engine response, runGetMethod removes the debug_log key
from the payload and returns its value on the separate debugLogs
channel, keeps every other key of the payload unchanged in the returned
output, and returns the response logs verbatim on the primary logs
channel. -/
theorem claim_C7_debug_log_split (args : GetMethodArgs)
    (output : List (String × JVal)) (logs : String) :
    runGetMethod args (fun _ => EngineResponse.ok output logs) =
      Except.ok ⟨removeKey "debug_log" output, logs,
                 jLookup "debug_log" output⟩ ∧
    hKey "debug_log" (removeKey "debug_log" output) = false ∧
    (∀ k, k ≠ "debug_log" →
      jLookup k (removeKey "debug_log" output) = jLookup k output) := by
  refine ⟨rfl, ?_, fun k hk => jLookup_removeKey_ne hk output⟩
  simp [hKey, jLookup_removeKey_self]

/-- A lone optional property under a different key yields nothing. -/
theorem jLookup_optField_alone_ne {k k' : String} (h : k ≠ k')
    (v : Option JVal) : jLookup k (optField k' v) = none := by
  cases v <;> simp [optField, jLookup, h]

/-- A key distinct from the eight wire keys of the common parameter
object is never present in it. -/
theorem hKey_commonParams_ne (k : String) (common : RunCommonArgs)
    (ep : TychoExecutorParams)
    (h1 : k ≠ "unixtime") (h2 : k ≠ "lt") (h3 : k ≠ "rand_seed")
    (h4 : k ≠ "ignore_chksig") (h5 : k ≠ "debug_enabled")
    (h6 : k ≠ "disable_delete_frozen_accounts")
    (h7 : k ≠ "charge_action_fees_on_fail")
    (h8 : k ≠ "full_body_in_bounced") :
    hKey k (runCommonArgsToInternalParams common ep) = false := by
  unfold runCommonArgsToInternalParams
  simp [hKey, jLookup_optField_ne h3, jLookup_optField_ne h6,
    jLookup_optField_ne h7, jLookup_optField_alone_ne h8, jLookup,
    h1, h2, h4, h5]

/-- C8: the parameters encoded by runTickTock are exactly the common
translated parameters shared with runTransaction plus is_tick_tock set
to true and is_tock set to whether the which argument is tock, and its
native emulate call carries a null message; runTransaction passes the
serialized message and its parameters never contain the tick or tock
keys. -/
theorem claim_C8_ticktock_params (oracle : EmulateCall → EngineResponse)
    (ep : TychoExecutorParams) (common : RunCommonArgs) (which : TickTock)
    (msg : Cell) (s : ExecState) :
    (runTickTock ⟨common, which⟩ oracle ep s).2.2.getLast? =
      some (NativeEvent.emulate
        ⟨(getEmulatorPointer common.config (verbosityToNum common.verbosity) s).1,
         common.libs.map Cell.toBocBase64, common.shardAccount, none,
         runCommonArgsToInternalParams common ep
           ++ [("is_tick_tock", JVal.bool true),
               ("is_tock", JVal.bool (which = TickTock.tock))]⟩) ∧
    (runTransaction ⟨common, msg⟩ oracle ep s).2.2.getLast? =
      some (NativeEvent.emulate
        ⟨(getEmulatorPointer common.config (verbosityToNum common.verbosity) s).1,
         common.libs.map Cell.toBocBase64, common.shardAccount,
         some msg.toBocBase64,
         runCommonArgsToInternalParams common ep⟩) ∧
    hKey "is_tick_tock" (runCommonArgsToInternalParams common ep) = false ∧
    hKey "is_tock" (runCommonArgsToInternalParams common ep) = false := by
  refine ⟨?_, ?_, ?_, ?_⟩
  · simp only [runTickTock]
    rcases hg : getEmulatorPointer common.config (verbosityToNum common.verbosity) s
      with ⟨ptr, s', evs⟩
    simp [List.getLast?_concat]
  · simp only [runTransaction]
    rcases hg : getEmulatorPointer common.config (verbosityToNum common.verbosity) s
      with ⟨ptr, s', evs⟩
    simp [List.getLast?_concat]
  · exact hKey_commonParams_ne _ common ep (by decide) (by decide) (by decide)
      (by decide) (by decide) (by decide) (by decide) (by decide)
  · exact hKey_commonParams_ne _ common ep (by decide) (by decide) (by decide)
      (by decide) (by decide) (by decide) (by decide) (by decide)

/-- Parsing recovers a decimal digit character. -/
theorem charDigit_decDigitChar (d : Nat) (h : d < 10) :
    charDigit (decDigitChar d) = some d := by
  interval_cases d <;> rfl

/-- A decimal digit character is not the minus sign. -/
theorem decDigitChar_ne_dash (d : Nat) (h : d < 10) :
    decDigitChar d ≠ '-' := by
  interval_cases d <;> decide

/-- Accumulating parse of an encoded digit list, most significant digit
first. -/
theorem parseDigitsAux_map_digits (L : List Nat) (acc : Nat)
    (h : ∀ d ∈ L, d < 10) :
    parseDigitsAux (L.map decDigitChar) acc =
      some (Nat.ofDigits 10 L.reverse + acc * 10 ^ L.length) := by
  induction L generalizing acc with
  | nil => simp [parseDigitsAux]
  | cons d L ih =>
      have hd : d < 10 := h d (List.mem_cons_self d L)
      simp only [List.map_cons, parseDigitsAux, charDigit_decDigitChar d hd]
      rw [ih (acc * 10 + d) (fun x hx => h x (List.mem_cons_of_mem _ hx))]
      congr 1
      simp only [List.reverse_cons, Nat.ofDigits_append, Nat.ofDigits_singleton,
        List.length_reverse, List.length_cons]
      ring

/-- parseDecimal on a string starting with a non-dash character. -/
theorem parseDecimal_mk_cons (c : Char) (cs : List Char) (h : c ≠ '-') :
    parseDecimal (String.mk (c :: cs)) =
      (parseDigitsAux (c :: cs) 0).map (fun n => (n : Int)) := by
  unfold parseDecimal
  simp [h]

/-- parseDecimal on a dash followed by a nonempty tail. -/
theorem parseDecimal_mk_dash_cons (c : Char) (cs : List Char) :
    parseDecimal (String.mk ('-' :: c :: cs)) =
      (parseDigitsAux (c :: cs) 0).map (fun n => -(n : Int)) := by
  unfold parseDecimal
  simp

/-- Round trip of the non-negative decimal encoding. -/
theorem parseDecimal_natToDecimal (n : Nat) :
    parseDecimal (natToDecimal n) = some (n : Int) := by
  by_cases h0 : n = 0
  · subst h0
    decide
  · have hne : Nat.digits 10 n ≠ [] := Nat.digits_ne_nil_iff_ne_zero.mpr h0
    rcases hL : (Nat.digits 10 n).reverse with _ | ⟨d, L'⟩
    · exact absurd (List.reverse_eq_nil_iff.mp hL) hne
    · have hlt : ∀ x ∈ d :: L', x < 10 := by
        intro x hx
        rw [← hL, List.mem_reverse] at hx
        exact Nat.digits_lt_base (by norm_num) hx
      have hdig : natToDecimal n = String.mk ((d :: L').map decDigitChar) := by
        simp [natToDecimal, h0, hL]
      rw [hdig, List.map_cons,
        parseDecimal_mk_cons _ _ (decDigitChar_ne_dash d (hlt d (List.mem_cons_self d L'))),
        ← List.map_cons, parseDigitsAux_map_digits (d :: L') 0 hlt]
      have hrev : (d :: L').reverse = Nat.digits 10 n := by
        rw [← hL, List.reverse_reverse]
      simp [hrev, Nat.ofDigits_digits]

/-- Round trip of the BigInt toString decimal encoding: re-parsing the
encoded decimal string yields the identical arbitrary-precision
integer. -/
theorem parseDecimal_bigIntToString (i : Int) :
    parseDecimal (bigIntToString i) = some i := by
  cases i with
  | ofNat n => exact parseDecimal_natToDecimal n
  | negSucc m =>
      have h0 : m + 1 ≠ 0 := Nat.succ_ne_zero m
      have hne : Nat.digits 10 (m + 1) ≠ [] :=
        Nat.digits_ne_nil_iff_ne_zero.mpr h0
      rcases hL : (Nat.digits 10 (m + 1)).reverse with _ | ⟨d, L'⟩
      · exact absurd (List.reverse_eq_nil_iff.mp hL) hne
      · have hlt : ∀ x ∈ d :: L', x < 10 := by
          intro x hx
          rw [← hL, List.mem_reverse] at hx
          exact Nat.digits_lt_base (by norm_num) hx
        have hdig : natToDecimal (m + 1) = String.mk ((d :: L').map decDigitChar) := by
          unfold natToDecimal
          rw [if_neg h0, hL]
        have hstr : bigIntToString (Int.negSucc m) =
            String.mk ('-' :: (d :: L').map decDigitChar) := by
          show "-" ++ natToDecimal (m + 1) = _
          rw [hdig]
          apply String.ext
          simp [String.data_append]
        rw [hstr, List.map_cons, parseDecimal_mk_dash_cons,
          ← List.map_cons, parseDigitsAux_map_digits (d :: L') 0 hlt]
        have hrev : (d :: L').reverse = Nat.digits 10 (m + 1) := by
          rw [← hL, List.reverse_reverse]
        rw [hrev, Nat.ofDigits_digits]
        simp only [Option.map_some', zero_mul, add_zero]
        congr 1

/-- C5: the balance and gas limit of the get-method parameters and the
logical time of the common transaction parameters are encoded on the
wire as decimal strings (JVal.str of the BigInt toString encoding),
never as JSON numbers, and re-parsing any encoded decimal string yields
the identical arbitrary-precision integer. -/
theorem claim_C5_bigint_strings :
    (∀ args : GetMethodArgs,
      jLookup "balance" (runGetMethodParams args) =
        some (JVal.str (bigIntToString args.balance)) ∧
      jLookup "gas_limit" (runGetMethodParams args) =
        some (JVal.str (bigIntToString args.gasLimit))) ∧
    (∀ (common : RunCommonArgs) (ep : TychoExecutorParams),
      jLookup "lt" (runCommonArgsToInternalParams common ep) =
        some (JVal.str (bigIntToString common.lt))) ∧
    (∀ i : Int, parseDecimal (bigIntToString i) = some i) := by
  refine ⟨?_, ?_, parseDecimal_bigIntToString⟩
  · intro args
    constructor <;>
      rcases hl : args.libs with _ | l <;>
      simp [runGetMethodParams, hl, optField, jLookup]
  · intro common ep
    simp [runCommonArgsToInternalParams, jLookup,
      jLookup_optField_ne (show ("lt" : String) ≠ "rand_seed" by decide)]

/-- C6: each of the optional get-method properties libs,
extra_currencies and debug_enabled is omitted entirely from the encoded
parameter object when the corresponding caller argument is absent. -/
theorem claim_C6_optional_omitted (args : GetMethodArgs) :
    (args.libs = none → hKey "libs" (runGetMethodParams args) = false) ∧
    (args.extraCurrency = none →
      hKey "extra_currencies" (runGetMethodParams args) = false) ∧
    (args.debugEnabled = none →
      hKey "debug_enabled" (runGetMethodParams args) = false) := by
  refine ⟨?_, ?_, ?_⟩ <;> intro h
  · rcases hd : args.debugEnabled with _ | b <;>
      rcases he : args.extraCurrency with _ | ec <;>
      simp [runGetMethodParams, h, hd, he, optField, hKey, jLookup]
  · rcases hl : args.libs with _ | l <;>
      rcases hd : args.debugEnabled with _ | b <;>
      simp [runGetMethodParams, h, hl, hd, optField, hKey, jLookup]
  · rcases hl : args.libs with _ | l <;>
      rcases he : args.extraCurrency with _ | ec <;>
      simp [runGetMethodParams, h, hl, he, optField, hKey, jLookup]

/-- The value is a present, non-null string. -/
def isStr : Option JVal → Bool
  | some (JVal.str _) => true
  | _ => false

/-- The value is present and either a string or null. -/
def isStrOrNull : Option JVal → Bool
  | some (JVal.str _) => true
  | some JVal.null => true
  | _ => false

/-- The value is a present JSON number. -/
def isNum : Option JVal → Bool
  | some (JVal.num _) => true
  | _ => false

/-- Wellformedness of an emulate output payload, transcribed from the
ResultSuccess and ResultError wire type declarations of the repository:
a success payload carries string transaction, shard_account and vm_log
fields and an actions field that is a string or null; an error payload
carries a string error field and, when the vm_log key is present, a
string vm_log with a numeric vm_exit_code. -/
def wfOutput (o : List (String × JVal)) : Bool :=
  match jLookup "success" o with
  | some (JVal.bool true) =>
      isStr (jLookup "transaction" o) && isStr (jLookup "shard_account" o) &&
      isStr (jLookup "vm_log" o) && isStrOrNull (jLookup "actions" o)
  | some (JVal.bool false) =>
      isStr (jLookup "error" o) &&
      (if hKey "vm_log" o then
         isStr (jLookup "vm_log" o) && isNum (jLookup "vm_exit_code" o)
       else true)
  | _ => false

/-- C3 (amended): for a wellformed ok payload, a true success field
yields the success shape exposing non-null string transaction,
shard_account and vm_log fields and an actions field that is always
present but equals the payload's actions value, which may be null; a
false success field yields the failure shape, where presence of the
vm_log key is the sole discriminant: with it, vmResults carries vmLog
and vmExitCode; without it, vmResults is absent. -/
theorem claim_C3_result_shape (output : List (String × JVal)) (logs : String)
    (hwf : wfOutput output = true) :
    (truthy (jLookup "success" output) = true →
      runCommon (EngineResponse.ok output logs) =
        Except.ok ⟨TxResult.success (jLookup "transaction" output)
          (jLookup "shard_account" output) (jLookup "vm_log" output)
          (jLookup "actions" output), logs, jLookup "debug_log" output⟩ ∧
      isStr (jLookup "transaction" output) = true ∧
      isStr (jLookup "shard_account" output) = true ∧
      isStr (jLookup "vm_log" output) = true ∧
      (jLookup "actions" output).isSome = true ∧
      isStrOrNull (jLookup "actions" output) = true) ∧
    (truthy (jLookup "success" output) = false →
      (hKey "vm_log" output = true →
        runCommon (EngineResponse.ok output logs) =
          Except.ok ⟨TxResult.failure (jLookup "error" output)
            (some (jLookup "vm_log" output, jLookup "vm_exit_code" output)),
            logs, jLookup "debug_log" output⟩ ∧
        isStr (jLookup "vm_log" output) = true ∧
        isNum (jLookup "vm_exit_code" output) = true) ∧
      (hKey "vm_log" output = false →
        runCommon (EngineResponse.ok output logs) =
          Except.ok ⟨TxResult.failure (jLookup "error" output) none,
            logs, jLookup "debug_log" output⟩) ∧
      isStr (jLookup "error" output) = true) := by
  have e1 := jLookup_removeKey_ne
    (show ("success" : String) ≠ "debug_log" by decide) output
  have e2 := jLookup_removeKey_ne
    (show ("transaction" : String) ≠ "debug_log" by decide) output
  have e3 := jLookup_removeKey_ne
    (show ("shard_account" : String) ≠ "debug_log" by decide) output
  have e4 := jLookup_removeKey_ne
    (show ("vm_log" : String) ≠ "debug_log" by decide) output
  have e5 := jLookup_removeKey_ne
    (show ("actions" : String) ≠ "debug_log" by decide) output
  have e6 := jLookup_removeKey_ne
    (show ("error" : String) ≠ "debug_log" by decide) output
  have e7 := jLookup_removeKey_ne
    (show ("vm_exit_code" : String) ≠ "debug_log" by decide) output
  have ek : hKey "vm_log" (removeKey "debug_log" output) =
      hKey "vm_log" output := by
    unfold hKey
    rw [e4]
  rcases hsv : jLookup "success" output with _ | v
  · rw [wfOutput, hsv] at hwf
    simp at hwf
  · cases v with
    | bool b =>
        cases b with
        | true =>
            rw [wfOutput, hsv] at hwf
            simp only [Bool.and_eq_true] at hwf
            refine ⟨fun _ => ⟨?_, hwf.1.1.1, hwf.1.1.2, hwf.1.2, ?_, hwf.2⟩,
              fun hf => ?_⟩
            · simp only [runCommon, e1, e2, e3, e4, e5, e6, e7, ek, hsv]
              simp [truthy]
            · rcases ha : jLookup "actions" output with _ | a
              · rw [ha] at hwf
                simp [isStrOrNull] at hwf
              · rfl
            · simp [truthy] at hf
        | false =>
            rw [wfOutput, hsv] at hwf
            simp only [Bool.and_eq_true] at hwf
            refine ⟨fun ht => by simp [truthy] at ht,
              fun _ => ⟨fun hvm => ?_, fun hvm => ?_, hwf.1⟩⟩
            · have hv2 : (isStr (jLookup "vm_log" output) &&
                  isNum (jLookup "vm_exit_code" output)) = true := by
                rw [if_pos hvm] at hwf
                exact hwf.2
              simp only [Bool.and_eq_true] at hv2
              refine ⟨?_, hv2.1, hv2.2⟩
              simp only [runCommon, e1, e2, e3, e4, e5, e6, e7, ek, hsv]
              simp [truthy, hvm]
            · simp only [runCommon, e1, e2, e3, e4, e5, e6, e7, ek, hsv]
              simp [truthy, hvm]
    | null =>
        rw [wfOutput, hsv] at hwf
        simp at hwf
    | num n =>
        rw [wfOutput, hsv] at hwf
        simp at hwf
    | str s =>
        rw [wfOutput, hsv] at hwf
        simp at hwf
    | strMap m =>
        rw [wfOutput, hsv] at hwf
        simp at hwf

/-- A concrete wellformed success payload whose actions value is null. -/
def c3CexOutput : List (String × JVal) :=
  [("success", JVal.bool true), ("transaction", JVal.str "txboc"),
   ("shard_account", JVal.str "saboc"), ("vm_log", JVal.str ""),
   ("actions", JVal.null)]

/-- C3 counterexample: a wellformed ok response with success true whose
actions field is null is normalized by runCommon to a success result
whose actions field is null, refuting the claim that the success shape
always exposes a non-null actions value. -/
theorem claim_C3_counterexample :
    wfOutput c3CexOutput = true ∧
    runCommon (EngineResponse.ok c3CexOutput "") =
      Except.ok ⟨TxResult.success (some (JVal.str "txboc"))
        (some (JVal.str "saboc")) (some (JVal.str ""))
        (some JVal.null), "", none⟩ ∧
    some JVal.null ≠ some (JVal.str "") := by
  exact ⟨by decide, rfl, by decide⟩

/-- C9: signatureDomainPrefix accepts domain tags and explicit 32-byte
hashes: the empty tag gives no prefix; a 32-byte buffer equal to the
empty-domain hash constant also gives no prefix; any other 32-byte
buffer is returned itself; a buffer of any other length is rejected
with an error; the l2 tag gives the sha256 hash of the 8-byte TL
encoding of the l2 tag and global id. -/
theorem claim_C9_signature_domain (sha256 : Bytes → Bytes) :
    signatureDomainPrefix sha256
        (SignatureDomainInput.dom SignatureDomain.empty) = Except.ok none ∧
    (∀ b : Bytes, b.length = 32 → b = SIGNATURE_DOMAIN_EMPTY_HASH sha256 →
      signatureDomainPrefix sha256 (SignatureDomainInput.buf b) =
        Except.ok none) ∧
    (∀ b : Bytes, b.length = 32 → b ≠ SIGNATURE_DOMAIN_EMPTY_HASH sha256 →
      signatureDomainPrefix sha256 (SignatureDomainInput.buf b) =
        Except.ok (some b)) ∧
    (∀ b : Bytes, b.length ≠ 32 →
      signatureDomainPrefix sha256 (SignatureDomainInput.buf b) =
        Except.error "invalid signature domain hash") ∧
    (∀ gid : Int,
      signatureDomainPrefix sha256
          (SignatureDomainInput.dom (SignatureDomain.l2 gid)) =
        Except.ok (some (sha256 (tlSignatureDomainL2 gid))) ∧
      (tlSignatureDomainL2 gid).length = 8) := by
  refine ⟨rfl, ?_, ?_, ?_, fun gid => ⟨rfl, rfl⟩⟩
  · intro b hlen heq
    subst heq
    simp [signatureDomainPrefix, hlen]
  · intro b hlen hne
    simp [signatureDomainPrefix, hlen, hne]
  · intro b hlen
    simp [signatureDomainPrefix, hlen]

/-- Concrete common arguments used by the witnesses. -/
def sampleCommonArgs : RunCommonArgs :=
  { config := "cfg", libs := none, verbosity := Verbosity.full,
    shardAccount := "sa", now := 0, lt := 1, randomSeed := none,
    ignoreChksig := true, debugEnabled := false }

/-- Concrete transaction arguments used by the witnesses. -/
def sampleTxArgs : RunTransactionArgs :=
  { toRunCommonArgs := sampleCommonArgs, message := ⟨"msgboc"⟩ }

/-- Concrete tick-tock arguments used by the witnesses. -/
def sampleTickArgs : RunTickTockArgs :=
  { toRunCommonArgs := sampleCommonArgs, which := TickTock.tick }

/-- An engine oracle that always reports a protocol failure. -/
def errOracle : EmulateCall → EngineResponse :=
  fun _ => EngineResponse.err "boom"

/-- Executor parameters with every optional flag unset. -/
def noParams : TychoExecutorParams := {}

/-- Concrete get-method arguments with every optional argument absent. -/
def sampleGetArgs : GetMethodArgs :=
  { code := ⟨"codeboc"⟩, data := ⟨"databoc"⟩,
    verbosity := Verbosity.full_location, libs := none, address := "0:00",
    unixTime := 0, balance := 1000000000, randomSeed := [], gasLimit := 0,
    methodId := 0, debugEnabled := none, stackBoc := "stackboc",
    config := "cfg", extraCurrency := none }

/-- Witness for C1 at a concrete two-call sequence sharing one key. -/
theorem claim_C1_handle_reuse_witness :
    countCreate (runCalls errOracle noParams
      [CallArgs.tx sampleTxArgs, CallArgs.tick sampleTickArgs]
      initialExecState).2 = 1 ∧
    countDestroy (runCalls errOracle noParams
      [CallArgs.tx sampleTxArgs, CallArgs.tick sampleTickArgs]
      initialExecState).2 = 0 ∧
    (runCalls errOracle noParams
      [CallArgs.tx sampleTxArgs, CallArgs.tick sampleTickArgs]
      initialExecState).1.emulator =
      some ⟨0, "cfg", verbosityToNum Verbosity.full⟩ ∧
    emulatesOnlyWith 0 (runCalls errOracle noParams
      [CallArgs.tx sampleTxArgs, CallArgs.tick sampleTickArgs]
      initialExecState).2 = true :=
  claim_C1_handle_reuse errOracle noParams "cfg" Verbosity.full
    [CallArgs.tx sampleTxArgs, CallArgs.tick sampleTickArgs]
    (by decide) (by decide)

/-- A concrete state caching a handle under a different key. -/
def mismatchState : ExecState := ⟨some ⟨5, "old", 0⟩, 7⟩

/-- Witness for C2 at a concrete call against a differing cached key. -/
theorem claim_C2_handle_replacement_witness :
    (runCall errOracle noParams (CallArgs.tx sampleTxArgs) mismatchState).2.2 =
      [NativeEvent.destroy 5,
       NativeEvent.create "cfg" (verbosityToNum Verbosity.full) 7,
       NativeEvent.emulate
         (emulateCallOf (CallArgs.tx sampleTxArgs) 7 noParams)] ∧
    (runCall errOracle noParams (CallArgs.tx sampleTxArgs)
        mismatchState).2.1.emulator =
      some ⟨7, "cfg", verbosityToNum Verbosity.full⟩ ∧
    (emulateCallOf (CallArgs.tx sampleTxArgs) 7 noParams).ptr = 7 :=
  claim_C2_handle_replacement errOracle noParams (CallArgs.tx sampleTxArgs)
    mismatchState 5 0 "old" rfl (Or.inl (by decide))

/-- A concrete wellformed failure payload carrying vm_log, vm_exit_code
and a debug_log to split off. -/
def c3WitnessOutput : List (String × JVal) :=
  [("success", JVal.bool false), ("error", JVal.str "no gas"),
   ("vm_log", JVal.str "log"), ("vm_exit_code", JVal.num 11),
   ("debug_log", JVal.str "dbg")]

/-- Witness for C3 at a concrete failure payload with a vm_log key. -/
theorem claim_C3_result_shape_witness :
    runCommon (EngineResponse.ok c3WitnessOutput "L") =
      Except.ok ⟨TxResult.failure (jLookup "error" c3WitnessOutput)
        (some (jLookup "vm_log" c3WitnessOutput,
               jLookup "vm_exit_code" c3WitnessOutput)),
        "L", jLookup "debug_log" c3WitnessOutput⟩ ∧
    isStr (jLookup "vm_log" c3WitnessOutput) = true ∧
    isNum (jLookup "vm_exit_code" c3WitnessOutput) = true := by
  obtain ⟨hpos, hneg⟩ := claim_C3_result_shape c3WitnessOutput "L" (by decide)
  exact (hneg (by decide)).1 (by decide)

/-- Witness for C6: sampleGetArgs has no libs, extra currencies or debug
flag, and none of the three keys appears in its encoded parameters. -/
theorem claim_C6_optional_omitted_witness :
    hKey "libs" (runGetMethodParams sampleGetArgs) = false ∧
    hKey "extra_currencies" (runGetMethodParams sampleGetArgs) = false ∧
    hKey "debug_enabled" (runGetMethodParams sampleGetArgs) = false := by
  obtain ⟨h1, h2, h3⟩ := claim_C6_optional_omitted sampleGetArgs
  exact ⟨h1 rfl, h2 rfl, h3 rfl⟩

/-- A concrete success payload with a debug_log and one other key. -/
def c7Output : List (String × JVal) :=
  [("success", JVal.bool true), ("debug_log", JVal.str "dbg"),
   ("gas_used", JVal.str "5")]

/-- Witness for C7 at a concrete payload: the debug_log key is removed,
routed to the debugLogs channel, and another key is untouched. -/
theorem claim_C7_debug_log_split_witness :
    runGetMethod sampleGetArgs (fun _ => EngineResponse.ok c7Output "LOG") =
      Except.ok ⟨[("success", JVal.bool true), ("gas_used", JVal.str "5")],
        "LOG", some (JVal.str "dbg")⟩ ∧
    hKey "debug_log" [("success", JVal.bool true),
      ("gas_used", JVal.str "5")] = false ∧
    jLookup "gas_used" (removeKey "debug_log" c7Output) =
      jLookup "gas_used" c7Output := by
  obtain ⟨h1, h2, h3⟩ := claim_C7_debug_log_split sampleGetArgs c7Output "LOG"
  exact ⟨h1, h2, h3 "gas_used" (by decide)⟩

/-- A stand-in hash function for the C9 witness. -/
def zeroHash : Bytes → Bytes := fun _ => List.replicate 32 0

/-- Witness for C9 at concrete buffers and a concrete global id. -/
theorem claim_C9_signature_domain_witness :
    signatureDomainPrefix zeroHash
      (SignatureDomainInput.dom SignatureDomain.empty) = Except.ok none ∧
    signatureDomainPrefix zeroHash
      (SignatureDomainInput.buf (List.replicate 32 0)) = Except.ok none ∧
    signatureDomainPrefix zeroHash
      (SignatureDomainInput.buf (List.replicate 32 1)) =
        Except.ok (some (List.replicate 32 1)) ∧
    signatureDomainPrefix zeroHash
      (SignatureDomainInput.buf [1, 2, 3]) =
        Except.error "invalid signature domain hash" ∧
    signatureDomainPrefix zeroHash
      (SignatureDomainInput.dom (SignatureDomain.l2 99)) =
        Except.ok (some (zeroHash (tlSignatureDomainL2 99))) := by
  obtain ⟨h1, h2, h3, h4, h5⟩ := claim_C9_signature_domain zeroHash
  exact ⟨h1, h2 _ (by decide) (by decide), h3 _ (by decide) (by decide),
    h4 _ (by decide), (h5 99).1⟩

/-- Witness for C10 at a concrete failing call followed by a same-key
call. -/
theorem claim_C10_error_keeps_cache_witness :
    (runCall errOracle noParams (CallArgs.tx sampleTxArgs)
        initialExecState).1 =
      Except.error ("Unknown emulation error: " ++ "boom") ∧
    (runCall errOracle noParams (CallArgs.tx sampleTxArgs)
        initialExecState).2.1.emulator =
      some ⟨(getEmulatorPointer "cfg" (verbosityToNum Verbosity.full)
        initialExecState).1, "cfg", verbosityToNum Verbosity.full⟩ ∧
    (runCall errOracle noParams (CallArgs.tick sampleTickArgs)
        ((runCall errOracle noParams (CallArgs.tx sampleTxArgs)
          initialExecState).2.1)).2.1 =
      (runCall errOracle noParams (CallArgs.tx sampleTxArgs)
        initialExecState).2.1 ∧
    countCreate (runCall errOracle noParams (CallArgs.tick sampleTickArgs)
        ((runCall errOracle noParams (CallArgs.tx sampleTxArgs)
          initialExecState).2.1)).2.2 = 0 ∧
    countDestroy (runCall errOracle noParams (CallArgs.tick sampleTickArgs)
        ((runCall errOracle noParams (CallArgs.tx sampleTxArgs)
          initialExecState).2.1)).2.2 = 0 :=
  claim_C10_error_keeps_cache errOracle noParams "boom"
    (CallArgs.tx sampleTxArgs) (CallArgs.tick sampleTickArgs)
    initialExecState rfl rfl
